import Mathlib

/-!
Verification development for the Recipe Blog HTTP API (FastAPI + MongoDB backend,
`main.py` and `schemas.py`).

The Python source is shallowly embedded: pure helper functions become Lean
functions, MongoDB documents become association lists from field names to a
`Value` type, the store becomes an explicit record of collections that the
handlers thread through, and fallible handlers return `Except`.

External collaborators are modelled from their documented behaviour:
* Python `str.lower` is modelled as mapping `Char.toLower` over the characters
  (ASCII case folding; the claims only exercise ASCII text).
* Python `str.split()` (no argument) splits on maximal whitespace runs and
  discards empty pieces; `"-".join` interleaves hyphens.
* Python `in` on strings is substring containment.
* Python dicts have unique keys; a document is a key-value list and
  `pop`/assignment become `popK`/`setK`.
* pymongo assigns a fresh `_id` to an inserted document and appends it to the
  collection; `bson.ObjectId(s)` accepts exactly 24-character hex strings and
  normalises them to lowercase; `str(ObjectId)` is the lowercase hex.
* MongoDB `$regex` with option `i` performs a case-insensitive unanchored
  regular-expression search; the fragment of PCRE the claims exercise
  (literal characters and the `.` wildcard) is modelled by `reSearch`.
  `$in` on an array-valued field matches when some element equals a listed
  value.
* FastAPI validates the request body against the pydantic schema before the
  handler body runs; a failure is a 422 validation error.  The `database`
  module (not part of the sources) exposes `db` (possibly `None`),
  `create_document` (insert one document, return its id as a string) and
  `get_documents` (filtered, limited read); these are modelled from the
  specification's description of the store interface.
-/

set_option maxHeartbeats 1000000

namespace RecipeBlog

/-! ### Strings and characters -/

/-- Substring containment on character lists: Python's `needle in hay`. -/
def containsSub (hay pat : List Char) : Bool :=
  hay.tails.any (fun t => pat.isPrefixOf t)

/-- Python `pat in hay` for strings. -/
def strContainsSub (hay pat : String) : Bool :=
  containsSub hay.data pat.data

/-- Python `s.lower()` (ASCII case folding, per-character). -/
def pyLower (s : String) : String :=
  ⟨s.data.map Char.toLower⟩

/-- Does the character list contain one of the XML-significant characters
`<`, `&`, `>`? -/
def hasXmlCharL (l : List Char) : Bool :=
  l.any (fun c => c = '<' || c = '&' || c = '>')

/-- Does the string contain one of `<`, `&`, `>`? -/
def hasXmlChar (s : String) : Bool :=
  hasXmlCharL s.data

/-! ### Whitespace splitting and slug derivation (`create_recipe`, line 50)

`"-".join(recipe.title.lower().split())`: `pySplit` is Python's `str.split()`
with no argument (split on whitespace runs, no empty pieces), `joinHyphen` is
`"-".join`. -/

/-- Python `str.split()`: the maximal non-whitespace runs, in order. -/
def pySplit : List Char → List (List Char)
  | [] => []
  | c :: l =>
    if c.isWhitespace then pySplit l
    else (c :: l.takeWhile (fun d => !d.isWhitespace)) ::
      pySplit (l.dropWhile (fun d => !d.isWhitespace))
termination_by l => l.length
decreasing_by
  · simp only [List.length_cons]
    omega
  · have h := (@List.dropWhile_sublist Char l (fun d => !d.isWhitespace)).length_le
    simp only [List.length_cons]
    omega

/-- Python `"-".join`. -/
def joinHyphen : List (List Char) → List Char
  | [] => []
  | [w] => w
  | w :: w' :: rest => w ++ '-' :: joinHyphen (w' :: rest)

/-- The slug derived from a title by `create_recipe`:
`"-".join(title.lower().split())`. -/
def deriveSlug (title : String) : String :=
  ⟨joinHyphen (pySplit (pyLower title).data)⟩

/-- Modelled from the spec: "the lowercase title with whitespace runs
collapsed to single hyphens", read literally — every maximal whitespace run
(leading and trailing runs included) becomes a single hyphen.  Used to compare
the claimed transformation with the one the code performs. -/
def collapseWs : List Char → List Char
  | [] => []
  | c :: l =>
    if c.isWhitespace then '-' :: collapseWs (l.dropWhile Char.isWhitespace)
    else c :: collapseWs l
termination_by l => l.length
decreasing_by
  · have h := (@List.dropWhile_sublist Char l Char.isWhitespace).length_le
    simp only [List.length_cons]
    omega
  · simp only [List.length_cons]
    omega

/-- `collapseWs` on strings. -/
def collapseStr (s : String) : String :=
  ⟨collapseWs s.data⟩

/-- Remove leading whitespace. -/
def trimLeft (l : List Char) : List Char :=
  l.dropWhile Char.isWhitespace

/-- Remove trailing whitespace. -/
def trimRight (l : List Char) : List Char :=
  (l.reverse.dropWhile Char.isWhitespace).reverse

/-- Remove leading and trailing whitespace. -/
def trimWs (l : List Char) : List Char :=
  trimRight (trimLeft l)

/-- Modelled from the spec (amended reading): leading and trailing whitespace
removed, internal whitespace runs collapsed to single hyphens. -/
def trimCollapseStr (s : String) : String :=
  ⟨collapseWs (trimWs s.data)⟩

/-! ### Documents and the store -/

/-- A BSON value, restricted to the shapes this API produces: strings, lists
of strings, integers, ObjectIds (carried as their 24-hex lowercase rendering),
and null. -/
inductive Value where
  | vStr : String → Value
  | vStrList : List String → Value
  | vInt : Int → Value
  | vOid : String → Value
  | vNull : Value
deriving DecidableEq, Repr

/-- A MongoDB document: an association list from field names to values.
Python dict keys are unique, so at most one entry per key is ever present in
documents built by the handlers. -/
abbrev Doc := List (String × Value)

/-- Field lookup, `d[k]` / `k in d`. -/
def getK (d : Doc) (k : String) : Option Value :=
  (d.find? (fun kv => kv.1 = k)).map (fun kv => kv.2)

/-- Python dict assignment `d[k] = v`: replace in place if the key exists,
append otherwise. -/
def setK : Doc → String → Value → Doc
  | [], k, v => [(k, v)]
  | (k', v') :: rest, k, v =>
    if k' = k then (k, v) :: rest else (k', v') :: setK rest k v

/-- Python dict `d.pop(k)` (the removal part): drop the entry for `k`. -/
def popK (d : Doc) (k : String) : Doc :=
  d.filter (fun kv => ¬ kv.1 = k)

/-- Python `str()` applied to a stored value (only ever reached on ObjectId
values in the code under study). -/
def pyStr : Value → String
  | .vStr s => s
  | .vStrList l => toString l
  | .vInt n => toString n
  | .vOid s => s
  | .vNull => "None"

/-- The per-value step of the ObjectId-to-string loop in `serialize_doc`. -/
def oidToStr : Value → Value
  | .vOid s => .vStr s
  | v => v

/-- `serialize_doc` (main.py lines 25-35): rename `_id` to `id` rendered as a
string, then render any remaining ObjectId value as a string. -/
def serialize_doc (d : Doc) : Doc :=
  if d = [] then d
  else
    let d1 := match getK d ("_id") with
      | some v => setK (popK d ("_id")) ("id") (.vStr (pyStr v))
      | none => d
    d1.map (fun kv => (kv.1, oidToStr kv.2))

/-- The state of the document store: one list per collection used by the API,
plus a counter from which fresh ObjectIds are minted. -/
structure Store where
  recipes : List Doc
  comments : List Doc
  categories : List Doc
  nextId : Nat
deriving DecidableEq, Repr

/-- A hexadecimal digit (lowercase for values 10-15). -/
def hexDigit (n : Nat) : Char :=
  if n < 10 then Char.ofNat (48 + n) else Char.ofNat (87 + n)

/-- Big-endian fixed-width hexadecimal rendering. -/
def hexChars : Nat → Nat → List Char
  | 0, _ => []
  | k + 1, n => hexChars k (n / 16) ++ [hexDigit (n % 16)]

/-- The 24-hex-character rendering of the `n`-th store-generated ObjectId. -/
def oidHex (n : Nat) : String :=
  ⟨hexChars 24 n⟩

/-- Is `c` a hexadecimal digit? -/
def isHexDigitChar (c : Char) : Bool :=
  (('0' ≤ c && c ≤ '9') || ('a' ≤ c && c ≤ 'f') || ('A' ≤ c && c ≤ 'F'))

/-- `bson.ObjectId(s)` succeeds exactly on 24-character hex strings. -/
def isValidObjectIdStr (s : String) : Bool :=
  s.length = 24 && s.data.all isHexDigitChar

/-! ### Schemas (schemas.py) -/

/-- The `Recipe` pydantic model (schemas.py lines 14-28), after validation.
`image_url` is carried as the string rendering of the validated URL. -/
structure Recipe where
  title : String
  slug : Option String
  summary : Option String
  ingredients : List String
  steps : List String
  category : Option String
  cook_time_minutes : Option Int
  image_url : Option String
  author : Option String
  tags : List String
deriving DecidableEq, Repr

/-- The field constraints pydantic enforces on `Recipe` before the handler
runs: title 3-140 characters, summary at most 280, cook time within 0-1000. -/
def recipeValid (r : Recipe) : Bool :=
  3 ≤ r.title.length && r.title.length ≤ 140 &&
  (match r.summary with
   | some s => s.length ≤ 280
   | none => true) &&
  (match r.cook_time_minutes with
   | some n => 0 ≤ n && n ≤ 1000
   | none => true)

/-- `None`-aware field rendering used by `model_dump`. -/
def optStrVal : Option String → Value
  | some s => .vStr s
  | none => .vNull

/-- `None`-aware integer rendering used by `model_dump`. -/
def optIntVal : Option Int → Value
  | some n => .vInt n
  | none => .vNull

/-- `recipe.model_dump()`: the document with the model's fields in
declaration order. -/
def recipeDump (r : Recipe) : Doc :=
  [(("title"), .vStr r.title),
   (("slug"), optStrVal r.slug),
   (("summary"), optStrVal r.summary),
   (("ingredients"), .vStrList r.ingredients),
   (("steps"), .vStrList r.steps),
   (("category"), optStrVal r.category),
   (("cook_time_minutes"), optIntVal r.cook_time_minutes),
   (("image_url"), optStrVal r.image_url),
   (("author"), optStrVal r.author),
   (("tags"), .vStrList r.tags)]

/-- The `Comment` pydantic model (schemas.py lines 31-38), after validation. -/
structure Comment where
  recipe_id : String
  name : String
  message : String
deriving DecidableEq, Repr

/-- `comment.model_dump()`. -/
def commentDump (c : Comment) : Doc :=
  [(("recipe_id"), .vStr c.recipe_id),
   (("name"), .vStr c.name),
   (("message"), .vStr c.message)]

/-- A raw request body for the comments endpoint: each schema field either
present or absent. -/
structure CommentPayload where
  recipe_id : Option String
  name : Option String
  message : Option String
deriving DecidableEq, Repr

/-- The pydantic validation FastAPI applies to a `Comment` body before the
handler runs: `recipe_id` required (any string), `name` required with 2-60
characters, `message` required with 1-1000 characters. -/
def validateComment (p : CommentPayload) : Except String Comment :=
  match p.recipe_id with
  | none => .error ("recipe_id: field required")
  | some rid =>
    match p.name with
    | none => .error ("name: field required")
    | some nm =>
      if nm.length < 2 then .error ("name: too short")
      else if 60 < nm.length then .error ("name: too long")
      else
        match p.message with
        | none => .error ("message: field required")
        | some msg =>
          if msg.length < 1 then .error ("message: too short")
          else if 1000 < msg.length then .error ("message: too long")
          else .ok ⟨rid, nm, msg⟩

/-- The `Category` pydantic model (schemas.py lines 41-47), after validation. -/
structure Category where
  name : String
  description : Option String
deriving DecidableEq, Repr

/-- `category` rendered as a document for insertion. -/
def categoryDump (c : Category) : Doc :=
  [(("name"), .vStr c.name),
   (("description"), optStrVal c.description)]

/-! ### Error taxonomy of the handlers -/

/-- A non-200 outcome of a request: an explicit `HTTPException`, a framework
(pydantic) validation failure, or an unhandled Python exception. -/
inductive HErr where
  | http : Nat → String → HErr
  | validation : String → HErr
  | pyError : String → HErr
deriving DecidableEq, Repr

/-- The fixed error raised when the store client is absent. -/
def notConfigured : HErr := .http 500 ("Database not configured")

/-! ### The recipe endpoints (main.py) -/

/-- `create_recipe` (main.py lines 44-54): derive the slug when absent or
empty, overwrite the dumped `slug` field, insert, return the new id.
The insert (`create_document`) is modelled from the spec: one insert into the
recipe collection assigning a fresh store-generated identifier. -/
def create_recipe (db? : Option Store) (r : Recipe) : Except HErr (String × Store) :=
  match db? with
  | none => .error notConfigured
  | some db =>
    let slug := match r.slug with
      | some s => if s = "" then deriveSlug r.title else s
      | none => deriveSlug r.title
    let data := setK (recipeDump r) ("slug") (.vStr slug)
    .ok (oidHex db.nextId,
      { db with
          recipes := db.recipes ++ [setK data ("_id") (.vOid (oidHex db.nextId))],
          nextId := db.nextId + 1 })

/-- One step of the regular-expression matcher: does the pattern match a
prefix of the text?  The fragment modelled is literal characters plus the
`.` wildcard, which is how PCRE treats patterns made of those characters. -/
def reMatchHere : List Char → List Char → Bool
  | [], _ => true
  | _ :: _, [] => false
  | p :: ps, c :: cs => (p = '.' || p = c) && reMatchHere ps cs

/-- Unanchored regular-expression search, as MongoDB `$regex` performs. -/
def reSearch (pat hay : List Char) : Bool :=
  hay.tails.any (fun t => reMatchHere pat t)

/-- `$regex` with `$options: "i"`: case-insensitive unanchored search. -/
def regexMatchI (pat s : String) : Bool :=
  reSearch (pyLower pat).data (pyLower s).data

/-- Is the string free of PCRE metacharacters? -/
def regexMetaFree (s : String) : Bool :=
  s.data.all (fun c =>
    !(c = '\\' || c = '^' || c = '$' || c = '.' || c = '|' || c = '?' ||
      c = '*' || c = '+' || c = '(' || c = ')' || c = '[' || c = ']' ||
      c = Char.ofNat 123 || c = Char.ofNat 125))

/-- The `title` predicate MongoDB evaluates for
`{"title": {"$regex": q, "$options": "i"}}`. -/
def mongoTitleRegex (pat : String) (d : Doc) : Bool :=
  match getK d ("title") with
  | some (.vStr s) => regexMatchI pat s
  | _ => false

/-- The `tags` predicate MongoDB evaluates for `{"tags": {"$in": [tag]}}`:
an array field matches when some element equals the listed value. -/
def mongoTagMatch (tag : String) (d : Doc) : Bool :=
  match getK d ("tags") with
  | some (.vStrList l) => l.any (fun s => s = tag)
  | some v => v = .vStr tag
  | none => false

/-- Python truthiness of an optional string parameter: `if q:` treats both an
absent parameter and the empty string as false. -/
def truthyOpt : Option String → Option String
  | some s => if s = "" then none else some s
  | none => none

/-- The conjunction of whichever filter predicates `list_recipes` put into
`filter_dict`. -/
def recipeFilterMatch (q tag : Option String) (d : Doc) : Bool :=
  (match q with
   | some p => mongoTitleRegex p d
   | none => true) &&
  (match tag with
   | some t => mongoTagMatch t d
   | none => true)

/-- `list_recipes` (main.py lines 57-67).  The read (`get_documents`) is
modelled from the spec: return up to `limit` documents of the collection
matching the filter, in store order, serialized. -/
def list_recipes (db? : Option Store) (q tag : Option String) (lim : Nat) :
    Except HErr (List Doc) :=
  match db? with
  | none => .error notConfigured
  | some db =>
    .ok (((db.recipes.filter
      (fun d => recipeFilterMatch (truthyOpt q) (truthyOpt tag) d)).take lim).map
        serialize_doc)

/-- `get_recipe` (main.py lines 70-77): exact slug lookup, 404 when absent. -/
def get_recipe (db? : Option Store) (slug : String) : Except HErr Doc :=
  match db? with
  | none => .error notConfigured
  | some db =>
    match db.recipes.find? (fun d => decide (getK d ("slug") = some (.vStr slug))) with
    | none => .error (.http 404 ("Recipe not found"))
    | some d => .ok (serialize_doc d)

/-! ### The comment, category, sitemap and suggestion endpoints -/

/-- `add_comment` handler body (main.py lines 81-97): parse the path id (400
when malformed), check the recipe exists (404), stamp `recipe_id` from the
path over the body value, insert.  `ObjectId` equality compares the parsed
bytes, so a stored id matches when it equals the lowercased path string. -/
def add_comment (db? : Option Store) (recipe_id : String) (c : Comment) :
    Except HErr (String × Store) :=
  match db? with
  | none => .error notConfigured
  | some db =>
    if isValidObjectIdStr recipe_id then
      match db.recipes.find?
        (fun d => decide (getK d ("_id") = some (.vOid (pyLower recipe_id)))) with
      | none => .error (.http 404 ("Recipe not found"))
      | some _ =>
        let data := setK (commentDump c) ("recipe_id") (.vStr recipe_id)
        .ok (oidHex db.nextId,
          { db with
              comments := db.comments ++ [setK data ("_id") (.vOid (oidHex db.nextId))],
              nextId := db.nextId + 1 })
    else .error (.http 400 ("Invalid recipe id"))

/-- The comments endpoint as a whole request: FastAPI validates the body
against the `Comment` schema before the handler body runs, so a payload
failure is reported (as 422) even when the path id is malformed. -/
def add_comment_route (db? : Option Store) (recipe_id : String)
    (p : CommentPayload) : Except HErr (String × Store) :=
  match validateComment p with
  | .error e => .error (.validation e)
  | .ok c => add_comment db? recipe_id c

/-- `list_comments` (main.py lines 100-105). -/
def list_comments (db? : Option Store) (recipe_id : String) (lim : Nat) :
    Except HErr (List Doc) :=
  match db? with
  | none => .error notConfigured
  | some db =>
    .ok (((db.comments.filter
      (fun d => decide (getK d ("recipe_id") = some (.vStr recipe_id)))).take lim).map
        serialize_doc)

/-- `create_category` (main.py lines 109-114). -/
def create_category (db? : Option Store) (c : Category) :
    Except HErr (String × Store) :=
  match db? with
  | none => .error notConfigured
  | some db =>
    .ok (oidHex db.nextId,
      { db with
          categories := db.categories ++ [setK (categoryDump c) ("_id") (.vOid (oidHex db.nextId))],
          nextId := db.nextId + 1 })

/-- `list_categories` (main.py lines 117-122). -/
def list_categories (db? : Option Store) (lim : Nat) : Except HErr (List Doc) :=
  match db? with
  | none => .error notConfigured
  | some db => .ok ((db.categories.take lim).map serialize_doc)

/-- `sitemap` (main.py lines 126-139).  The handler subscripts `db` without a
configuration check, so with the client absent the evaluation of
`db["recipe"]` raises an unhandled `TypeError` — modelled by the `pyError`
branch.  With the client present it renders one `url` entry per recipe (up to
500), interpolating the stored slug without escaping. -/
def sitemap (base : String) (db? : Option Store) : Except HErr String :=
  match db? with
  | none => .error (.pyError ("TypeError: NoneType object is not subscriptable"))
  | some db =>
    let urls := (db.recipes.take 500).map (fun d =>
      "  <url><loc>" ++ base ++ "/recipe/" ++
        (match getK d ("slug") with
         | some v => pyStr v
         | none => "") ++ "</loc></url>")
    .ok (String.intercalate "\n"
      (["<?xml version=\"1.0\" encoding=\"UTF-8\"?>",
        "<urlset xmlns=\"http://www.sitemaps.org/schemas/sitemap/0.9\">"] ++
       urls ++ ["</urlset>"]))

/-- The `/api/ai/suggest` request body (main.py lines 143-145). -/
structure AISuggestRequest where
  title : String
  ingredients : List String
deriving DecidableEq, Repr

/-- Tip emitted by the salt rule. -/
def saltTip : String := "Add a pinch of salt to enhance flavors."

/-- Tip emitted by the citrus rule. -/
def citrusTip : String := "A squeeze of citrus at the end brightens the dish."

/-- Tip emitted by the garlic rule. -/
def garlicTip : String := "Saute garlic gently; burnt garlic turns bitter."

/-- Tip emitted by the fallback rule. -/
def fallbackTip : String := "Taste as you cook and adjust seasoning gradually."

/-- `ai_suggest` (main.py lines 148-161): join the ingredients with a comma
and a space, test each rule against the lowered text appending its tip, add
the fallback only when no tip was produced, return the first three tips. -/
def ai_suggest (r : AISuggestRequest) : List String :=
  let ings := String.intercalate (", ") r.ingredients
  let t1 : List String :=
    if !(strContainsSub (pyLower ings) ("salt")) then [saltTip] else []
  let t2 := t1 ++
    (if strContainsSub (pyLower ings) ("lemon") || strContainsSub (pyLower ings) ("lime")
     then [citrusTip] else [])
  let t3 := t2 ++
    (if strContainsSub (pyLower ings) ("garlic") then [garlicTip] else [])
  let t4 := if t3 = [] then t3 ++ [fallbackTip] else t3
  t4.take 3

/-- Modelled from the spec: the four rules of section 4.8 evaluated in fixed
order against the case-insensitively lowered comma-space-joined ingredient
text, rules 1-3 each appending their tip, rule 4 firing only when none did. -/
def specRuleTips (lowered : String) : List String :=
  (if !(strContainsSub lowered ("salt")) then [saltTip] else []) ++
  (if strContainsSub lowered ("lemon") || strContainsSub lowered ("lime")
   then [citrusTip] else []) ++
  (if strContainsSub lowered ("garlic") then [garlicTip] else [])

/-- Modelled from the spec: the suggestion result — the rule tips (or the
fallback when none fired) truncated to the first 3. -/
def aiSuggestSpec (r : AISuggestRequest) : List String :=
  let lowered := pyLower (String.intercalate (", ") r.ingredients)
  (if specRuleTips lowered = [] then [fallbackTip] else specRuleTips lowered).take 3

/-- The `slug` field of the single document a successful `create_recipe`
appended to the recipe collection. -/
def createdSlug (res : Except HErr (String × Store)) : Option Value :=
  match res with
  | .ok (_, st) =>
    match st.recipes.getLast? with
    | some d => getK d ("slug")
    | none => none
  | .error _ => none

/-! ### Auxiliary lemmas: whitespace splitting versus trimming and collapsing -/

theorem dropWhile_append_all {p : Char → Bool} (a b : List Char)
    (h : ∀ x ∈ a, p x = true) : (a ++ b).dropWhile p = b.dropWhile p := by
  induction a with
  | nil => rfl
  | cons x xs ih =>
    rw [List.cons_append, List.dropWhile_cons, if_pos (h x (List.mem_cons_self x xs))]
    exact ih (fun y hy => h y (List.mem_cons_of_mem x hy))

theorem dropWhile_append_ne {p : Char → Bool} (a b : List Char)
    (h : a.dropWhile p ≠ []) : (a ++ b).dropWhile p = a.dropWhile p ++ b := by
  induction a with
  | nil => simp at h
  | cons x xs ih =>
    rw [List.dropWhile_cons] at h ⊢
    by_cases hx : p x = true
    · rw [if_pos hx] at h ⊢
      rw [List.cons_append, List.dropWhile_cons, if_pos hx]
      exact ih h
    · rw [if_neg hx]
      rw [List.cons_append, List.dropWhile_cons, if_neg hx]

theorem dropWhile_head_false {p : Char → Bool} {l t : List Char} {a : Char}
    (h : l.dropWhile p = a :: t) : p a = false := by
  induction l with
  | nil => simp at h
  | cons x xs ih =>
    rw [List.dropWhile_cons] at h
    by_cases hx : p x = true
    · rw [if_pos hx] at h
      exact ih h
    · rw [if_neg hx] at h
      injection h with h1 _
      subst h1
      simpa using hx

theorem dropWhile_all_false {p : Char → Bool} (l : List Char)
    (h : ∀ c ∈ l, p c = false) : l.dropWhile p = l := by
  cases l with
  | nil => rfl
  | cons x xs =>
    rw [List.dropWhile_cons, if_neg (by simp [h x (List.mem_cons_self x xs)])]

theorem trimRight_all_ws (l : List Char) (h : ∀ c ∈ l, c.isWhitespace = true) :
    trimRight l = [] := by
  unfold trimRight
  rw [List.dropWhile_eq_nil_iff.mpr (fun x hx => h x (List.mem_reverse.mp hx))]
  rfl

theorem trimRight_word_append (w r : List Char)
    (hw : ∀ c ∈ w, c.isWhitespace = false) :
    trimRight (w ++ r) = w ++ trimRight r := by
  unfold trimRight
  rw [List.reverse_append]
  by_cases hr : r.reverse.dropWhile Char.isWhitespace = []
  · rw [dropWhile_append_all _ _ (List.dropWhile_eq_nil_iff.mp hr)]
    rw [hr]
    rw [dropWhile_all_false _ (fun c hc => hw c (List.mem_reverse.mp hc))]
    simp
  · rw [dropWhile_append_ne _ _ hr]
    simp [List.reverse_append]

theorem trimRight_cons_of_mem (a : Char) (t : List Char)
    (h : ∃ y ∈ t, y.isWhitespace = false) : trimRight (a :: t) = a :: trimRight t := by
  unfold trimRight
  have hne : t.reverse.dropWhile Char.isWhitespace ≠ [] := by
    intro hnil
    rcases h with ⟨y, hy, hyf⟩
    have hy2 := List.dropWhile_eq_nil_iff.mp hnil y (List.mem_reverse.mpr hy)
    rw [hyf] at hy2
    simp at hy2
  rw [show (a :: t).reverse = t.reverse ++ [a] from by simp]
  rw [dropWhile_append_ne _ _ hne]
  simp

theorem dropWhile_trimRight (l : List Char) :
    (trimRight l).dropWhile Char.isWhitespace =
      trimRight (l.dropWhile Char.isWhitespace) := by
  induction l with
  | nil => rfl
  | cons a t ih =>
    by_cases hex : ∃ y ∈ t, y.isWhitespace = false
    · rw [trimRight_cons_of_mem a t hex]
      by_cases ha : a.isWhitespace = true
      · rw [List.dropWhile_cons, if_pos ha, List.dropWhile_cons, if_pos ha]
        exact ih
      · rw [List.dropWhile_cons, if_neg ha, List.dropWhile_cons, if_neg ha]
        rw [trimRight_cons_of_mem a t hex]
    · push_neg at hex
      have hallt : ∀ y ∈ t, y.isWhitespace = true := by
        intro y hy
        have hb := hex y hy
        simpa using hb
      by_cases ha : a.isWhitespace = true
      · have hall : ∀ c ∈ a :: t, c.isWhitespace = true := by
          intro c hc
          rcases List.mem_cons.mp hc with h1 | h2
          · subst h1; exact ha
          · exact hallt c h2
        rw [trimRight_all_ws _ hall]
        rw [List.dropWhile_cons, if_pos ha]
        rw [List.dropWhile_eq_nil_iff.mpr hallt]
        rfl
      · have h1 : trimRight (a :: t) = [a] := by
          unfold trimRight
          rw [show (a :: t).reverse = t.reverse ++ [a] from by simp]
          rw [dropWhile_append_all _ _ (fun x hx => hallt x (List.mem_reverse.mp hx))]
          rw [List.dropWhile_cons, if_neg ha]
          rfl
        rw [h1]
        rw [List.dropWhile_cons, if_neg ha, List.dropWhile_cons, if_neg ha]
        rw [h1]



theorem pySplit_cons_ws (c : Char) (l : List Char) (hc : c.isWhitespace = true) :
    pySplit (c :: l) = pySplit l := by
  simp only [pySplit, if_pos hc]

theorem pySplit_cons_nonws (c : Char) (l : List Char) (hc : ¬ c.isWhitespace = true) :
    pySplit (c :: l) =
      (c :: l.takeWhile (fun d => !d.isWhitespace)) ::
        pySplit (l.dropWhile (fun d => !d.isWhitespace)) := by
  simp only [pySplit, if_neg hc]

theorem collapseWs_cons_ws (c : Char) (l : List Char) (hc : c.isWhitespace = true) :
    collapseWs (c :: l) = '-' :: collapseWs (l.dropWhile Char.isWhitespace) := by
  simp only [collapseWs, if_pos hc]

theorem collapseWs_cons_nonws (c : Char) (l : List Char) (hc : c.isWhitespace = false) :
    collapseWs (c :: l) = c :: collapseWs l := by
  simp only [collapseWs, hc]
  simp

theorem pySplit_nil : pySplit [] = [] := by
  simp [pySplit]

theorem collapseWs_nil : collapseWs [] = [] := by
  simp [collapseWs]

theorem pySplit_eq_nil_iff {l : List Char} :
    pySplit l = [] ↔ ∀ c ∈ l, c.isWhitespace = true := by
  induction l using pySplit.induct with
  | case1 => simp [pySplit]
  | case2 c l hc ih =>
    rw [pySplit_cons_ws c l hc]
    constructor
    · intro h x hx
      rcases List.mem_cons.mp hx with h1 | h2
      · subst h1; exact hc
      · exact (ih.mp h) x h2
    · intro h
      exact ih.mpr (fun x hx => h x (List.mem_cons_of_mem c hx))
  | case3 c l hc ih =>
    rw [pySplit_cons_nonws c l hc]
    constructor
    · intro h
      simp at h
    · intro h
      exact absurd (h c (List.mem_cons_self c l)) hc

theorem collapseWs_word_append (w l : List Char)
    (hw : ∀ c ∈ w, c.isWhitespace = false) :
    collapseWs (w ++ l) = w ++ collapseWs l := by
  induction w with
  | nil => rfl
  | cons x xs ih =>
    rw [List.cons_append, collapseWs_cons_nonws x _ (hw x (List.mem_cons_self x xs))]
    rw [ih (fun y hy => hw y (List.mem_cons_of_mem x hy))]
    rfl

theorem joinHyphen_pySplit (l : List Char) :
    joinHyphen (pySplit l) = collapseWs (trimWs l) := by
  induction l using pySplit.induct with
  | case1 =>
    rw [pySplit_nil]
    unfold trimWs trimLeft trimRight
    simp [collapseWs_nil, joinHyphen]
  | case2 c l hc ih =>
    rw [pySplit_cons_ws c l hc]
    have ht : trimWs (c :: l) = trimWs l := by
      unfold trimWs trimLeft
      rw [List.dropWhile_cons, if_pos hc]
    rw [ht]
    exact ih
  | case3 c l hc ih =>
    have hcf : c.isWhitespace = false := by simpa using hc
    rw [pySplit_cons_nonws c l hc]
    set w : List Char := c :: l.takeWhile (fun d => !d.isWhitespace) with hwdef
    set r : List Char := l.dropWhile (fun d => !d.isWhitespace) with hrdef
    have hwall : ∀ x ∈ w, x.isWhitespace = false := by
      intro x hx
      rw [hwdef] at hx
      rcases List.mem_cons.mp hx with h1 | h2
      · subst h1; exact hcf
      · have h3 := List.mem_takeWhile_imp h2
        simpa using h3
    have hsplit : c :: l = w ++ r := by
      rw [hwdef, hrdef, List.cons_append, List.takeWhile_append_dropWhile]
    have htrim : trimWs (c :: l) = w ++ trimRight r := by
      unfold trimWs trimLeft
      rw [List.dropWhile_cons, if_neg (by simp [hcf])]
      rw [hsplit, trimRight_word_append w r hwall]
    rw [htrim, collapseWs_word_append w (trimRight r) hwall]
    by_cases hr0 : pySplit r = []
    · rw [hr0]
      rw [trimRight_all_ws r (pySplit_eq_nil_iff.mp hr0)]
      rw [collapseWs_nil]
      simp [joinHyphen]
    · rcases hp : pySplit r with _ | ⟨p, ps⟩
      · exact absurd hp hr0
      have hjoin : joinHyphen (w :: p :: ps) = w ++ '-' :: joinHyphen (p :: ps) := rfl
      rw [hjoin, ← hp, ih]
      rcases hrc : r with _ | ⟨x, r''⟩
      · rw [hrc] at hp
        simp [pySplit] at hp
      have hx : x.isWhitespace = true := by
        have h0 : l.dropWhile (fun d => !d.isWhitespace) = x :: r'' := by
          rw [← hrdef, hrc]
        have h1 := dropWhile_head_false h0
        simpa using h1
      have hex : ∃ y ∈ r'', y.isWhitespace = false := by
        have h1 : ¬ ∀ c' ∈ r, c'.isWhitespace = true := fun hall =>
          hr0 (pySplit_eq_nil_iff.mpr hall)
        push_neg at h1
        rcases h1 with ⟨y, hy, hyf⟩
        have hyf' : y.isWhitespace = false := by simpa using hyf
        rw [hrc] at hy
        rcases List.mem_cons.mp hy with h2 | h2
        · subst h2
          rw [hx] at hyf'
          cases hyf'
        · exact ⟨y, h2, hyf'⟩
      have hkey : collapseWs (trimRight r) = '-' :: collapseWs (trimWs r) := by
        rw [hrc, trimRight_cons_of_mem x r'' hex]
        rw [collapseWs_cons_ws x _ hx]
        rw [dropWhile_trimRight r'']
        unfold trimWs trimLeft
        rw [List.dropWhile_cons, if_pos hx]
      rw [hrc] at hkey
      rw [hkey]

/-! ### Auxiliary lemmas: case folding and XML-significant characters -/

theorem toNat_ofNat_valid (n : Nat) (h : n.isValidChar) : (Char.ofNat n).toNat = n := by
  simp only [Char.ofNat, dif_pos h, Char.ofNatAux, Char.toNat]
  rfl

theorem toLower_eq_self_or_letter (c : Char) :
    Char.toLower c = c ∨ (97 ≤ (Char.toLower c).toNat ∧ (Char.toLower c).toNat ≤ 122) := by
  unfold Char.toLower
  by_cases h : c.toNat ≥ 65 ∧ c.toNat ≤ 90
  · right
    rw [if_pos h]
    have hv : (c.toNat + 32).isValidChar := Or.inl (by omega)
    rw [toNat_ofNat_valid _ hv]
    omega
  · left
    rw [if_neg h]

theorem toLower_eq_of_notLetter {c t : Char} (ht : t.toNat < 97 ∨ 122 < t.toNat)
    (h : Char.toLower c = t) : c = t := by
  rcases toLower_eq_self_or_letter c with h1 | h2
  · rw [← h1, h]
  · rw [h] at h2
    omega

theorem hasXmlCharL_false_mem {l : List Char} (h : hasXmlCharL l = false) {c : Char}
    (hc : c ∈ l) : ¬ c = '<' ∧ ¬ c = '&' ∧ ¬ c = '>' := by
  unfold hasXmlCharL at h
  rw [Bool.eq_false_iff] at h
  refine ⟨?_, ?_, ?_⟩ <;> intro he <;>
    exact h (List.any_eq_true.mpr ⟨c, hc, by simp [he]⟩)

theorem hasXmlCharL_false_of (l : List Char)
    (h : ∀ c ∈ l, ¬ c = '<' ∧ ¬ c = '&' ∧ ¬ c = '>') : hasXmlCharL l = false := by
  unfold hasXmlCharL
  rw [Bool.eq_false_iff]
  intro hb
  rcases List.any_eq_true.mp hb with ⟨c, hc, hcc⟩
  rcases h c hc with ⟨h1, h2, h3⟩
  simp [h1, h2, h3] at hcc

theorem hasXmlCharL_map_toLower (l : List Char) (h : hasXmlCharL l = false) :
    hasXmlCharL (l.map Char.toLower) = false := by
  apply hasXmlCharL_false_of
  intro c hc
  rcases List.mem_map.mp hc with ⟨a, ha, heq⟩
  rcases hasXmlCharL_false_mem h ha with ⟨h1, h2, h3⟩
  refine ⟨?_, ?_, ?_⟩ <;> intro he
  · exact h1 (toLower_eq_of_notLetter (Or.inl (by decide)) (heq.trans he))
  · exact h2 (toLower_eq_of_notLetter (Or.inl (by decide)) (heq.trans he))
  · exact h3 (toLower_eq_of_notLetter (Or.inl (by decide)) (heq.trans he))

theorem mem_collapseWs (l : List Char) :
    ∀ c ∈ collapseWs l, c ∈ l ∨ c = '-' := by
  induction l using collapseWs.induct with
  | case1 =>
    intro c hc
    rw [collapseWs_nil] at hc
    cases hc
  | case2 a l ha ih =>
    intro c hc
    rw [collapseWs_cons_ws a l ha] at hc
    rcases List.mem_cons.mp hc with h1 | h2
    · right
      exact h1
    · rcases ih c h2 with h3 | h3
      · left
        exact List.mem_cons_of_mem a ((List.dropWhile_sublist _).subset h3)
      · right
        exact h3
  | case3 a l ha ih =>
    intro c hc
    rw [collapseWs_cons_nonws a l (by simpa using ha)] at hc
    rcases List.mem_cons.mp hc with h1 | h2
    · left
      subst h1
      exact List.mem_cons_self _ _
    · rcases ih c h2 with h3 | h3
      · left
        exact List.mem_cons_of_mem a h3
      · right
        exact h3

theorem mem_trimWs {l : List Char} {c : Char} (hc : c ∈ trimWs l) : c ∈ l := by
  unfold trimWs trimRight trimLeft at hc
  have h1 := (List.dropWhile_sublist Char.isWhitespace).subset (List.mem_reverse.mp hc)
  exact (List.dropWhile_sublist _).subset (List.mem_reverse.mp h1)

theorem hasXmlChar_deriveSlug (t : String) (h : hasXmlChar t = false) :
    hasXmlChar (deriveSlug t) = false := by
  unfold hasXmlChar deriveSlug
  show hasXmlCharL (joinHyphen (pySplit (pyLower t).data)) = false
  rw [joinHyphen_pySplit]
  have hlow : hasXmlCharL (pyLower t).data = false := by
    unfold pyLower
    exact hasXmlCharL_map_toLower t.data h
  apply hasXmlCharL_false_of
  intro c hc
  rcases mem_collapseWs _ c hc with h1 | h1
  · exact hasXmlCharL_false_mem hlow (mem_trimWs h1)
  · subst h1
    exact ⟨by decide, by decide, by decide⟩

/-! ### Auxiliary lemmas: document field operations -/

theorem getK_cons (k' : String) (v' : Value) (d : Doc) (k : String) :
    getK ((k', v') :: d) k = if k' = k then some v' else getK d k := by
  unfold getK
  rw [List.find?_cons]
  by_cases h : k' = k
  · simp [h]
  · simp [h]

theorem getK_append (l m : Doc) (k : String) :
    getK (l ++ m) k = (getK l k).or (getK m k) := by
  unfold getK
  rw [List.find?_append]
  cases List.find? (fun kv => decide (kv.1 = k)) l <;> simp [Option.or]

theorem popK_cons (k0 : String) (v0 : Value) (rest : Doc) (k : String) :
    popK ((k0, v0) :: rest) k = if k0 = k then popK rest k else (k0, v0) :: popK rest k := by
  unfold popK
  rw [List.filter_cons]
  by_cases h : k0 = k
  · simp [h]
  · simp [h]

theorem getK_popK_ne (d : Doc) (k k' : String) (h : ¬ k' = k) :
    getK (popK d k') k = getK d k := by
  induction d with
  | nil => rfl
  | cons kv rest ih =>
    rcases kv with ⟨k0, v0⟩
    rw [popK_cons]
    by_cases hk : k0 = k'
    · rw [if_pos hk]
      rw [getK_cons, if_neg (fun he => h (hk.symm.trans he))]
      exact ih
    · rw [if_neg hk]
      rw [getK_cons, getK_cons]
      by_cases h0 : k0 = k
      · simp [h0]
      · simp only [if_neg h0]
        exact ih

theorem getK_popK_self (d : Doc) (k : String) : getK (popK d k) k = none := by
  induction d with
  | nil => rfl
  | cons kv rest ih =>
    rcases kv with ⟨k0, v0⟩
    rw [popK_cons]
    by_cases hk : k0 = k
    · rw [if_pos hk]
      exact ih
    · rw [if_neg hk]
      rw [getK_cons, if_neg hk]
      exact ih

theorem setK_eq_append (d : Doc) (k : String) (v : Value) (h : getK d k = none) :
    setK d k v = d ++ [(k, v)] := by
  induction d with
  | nil => rfl
  | cons kv rest ih =>
    rcases kv with ⟨k0, v0⟩
    rw [getK_cons] at h
    by_cases h0 : k0 = k
    · rw [if_pos h0] at h
      cases h
    · rw [if_neg h0] at h
      show setK ((k0, v0) :: rest) k v = (k0, v0) :: (rest ++ [(k, v)])
      unfold setK
      rw [if_neg h0]
      rw [ih h]

theorem getK_map_oid (d : Doc) (k : String) :
    getK (d.map (fun kv => (kv.1, oidToStr kv.2))) k = (getK d k).map oidToStr := by
  induction d with
  | nil => rfl
  | cons kv rest ih =>
    rcases kv with ⟨k0, v0⟩
    rw [List.map_cons]
    rw [getK_cons, getK_cons]
    by_cases h0 : k0 = k
    · simp [h0]
    · simp only [if_neg h0]
      exact ih

/-! ### Auxiliary lemmas: regular-expression search on metacharacter-free patterns -/

theorem reMatchHere_noDot (ps : List Char) (h : ∀ c ∈ ps, ¬ c = '.') :
    ∀ cs : List Char, reMatchHere ps cs = ps.isPrefixOf cs := by
  induction ps with
  | nil =>
    intro cs
    cases cs <;> rfl
  | cons p ps ih =>
    intro cs
    cases cs with
    | nil => rfl
    | cons c cs =>
      show ((p = '.' || p = c) && reMatchHere ps cs) = (p == c && ps.isPrefixOf cs)
      rw [ih (fun x hx => h x (List.mem_cons_of_mem p hx)) cs]
      have hp : ¬ p = '.' := h p (List.mem_cons_self p ps)
      by_cases hc : p = c
      · simp [hc]
      · simp [hc, hp]

theorem reSearch_noDot (pat hay : List Char) (h : ∀ c ∈ pat, ¬ c = '.') :
    reSearch pat hay = containsSub hay pat := by
  unfold reSearch containsSub
  congr 1
  funext t
  exact reMatchHere_noDot pat h t

theorem metaFree_no_dot {q : String} (h : regexMetaFree q = true) :
    ∀ c ∈ (pyLower q).data, ¬ c = '.' := by
  intro c hc hdot
  unfold pyLower at hc
  rcases List.mem_map.mp hc with ⟨a, ha, heq⟩
  have ha2 : a = '.' := toLower_eq_of_notLetter (Or.inl (by decide)) (heq.trans hdot)
  unfold regexMetaFree at h
  rw [List.all_eq_true] at h
  have h3 := h a ha
  rw [ha2] at h3
  simp at h3

theorem regexMatchI_metaFree {q s : String} (hm : regexMetaFree q = true)
    (h : regexMatchI q s = true) : strContainsSub (pyLower s) (pyLower q) = true := by
  unfold regexMatchI at h
  rw [reSearch_noDot _ _ (metaFree_no_dot hm)] at h
  exact h

/-! ### Claims about slug derivation (C2, C5) -/

theorem getK_setK_self (d : Doc) (k : String) (v : Value) :
    getK (setK d k v) k = some v := by
  induction d with
  | nil =>
    rw [show setK [] k v = [(k, v)] from rfl, getK_cons, if_pos rfl]
  | cons kv rest ih =>
    rcases kv with ⟨k0, v0⟩
    show getK (if k0 = k then (k, v) :: rest else (k0, v0) :: setK rest k v) k = some v
    by_cases h0 : k0 = k
    · rw [if_pos h0, getK_cons, if_pos rfl]
    · rw [if_neg h0, getK_cons, if_neg h0]
      exact ih

theorem getK_setK_ne (d : Doc) (k k' : String) (v : Value) (h : ¬ k' = k) :
    getK (setK d k' v) k = getK d k := by
  induction d with
  | nil =>
    rw [show setK [] k' v = [(k', v)] from rfl, getK_cons, if_neg h]
  | cons kv rest ih =>
    rcases kv with ⟨k0, v0⟩
    show getK (if k0 = k' then (k', v) :: rest else (k0, v0) :: setK rest k' v) k = _
    by_cases h0 : k0 = k'
    · rw [if_pos h0, getK_cons, if_neg h, getK_cons, if_neg (h0 ▸ h)]
    · rw [if_neg h0, getK_cons, getK_cons]
      by_cases h1 : k0 = k
      · rw [if_pos h1, if_pos h1]
      · rw [if_neg h1, if_neg h1]
        exact ih

theorem createdSlug_create_recipe (db : Store) (r : Recipe) :
    createdSlug (create_recipe (some db) r) =
      some (.vStr (match r.slug with
        | some s => if s = "" then deriveSlug r.title else s
        | none => deriveSlug r.title)) := by
  unfold createdSlug create_recipe
  dsimp only
  rw [List.getLast?_concat]
  dsimp only
  rw [getK_setK_ne _ _ _ _ (by decide)]
  rw [getK_setK_self]



theorem pySplit_space_ab : pySplit [' ', 'a', 'b'] = [['a', 'b']] := by
  rw [pySplit_cons_ws _ _ (by decide)]
  rw [pySplit_cons_nonws _ _ (by decide)]
  rw [show List.dropWhile (fun d => !d.isWhitespace) ['b'] = [] from rfl]
  rw [pySplit_nil]
  rfl

theorem deriveSlug_space_ab : deriveSlug " ab" = "ab" := by
  unfold deriveSlug
  rw [show (pyLower " ab").data = [' ', 'a', 'b'] from rfl]
  rw [pySplit_space_ab]
  rfl

theorem collapse_space_ab : collapseStr (pyLower " ab") = "-ab" := by
  unfold collapseStr
  rw [show (pyLower " ab").data = [' ', 'a', 'b'] from rfl]
  rw [collapseWs_cons_ws _ _ (by decide)]
  rw [show List.dropWhile Char.isWhitespace ['a', 'b'] = ['a', 'b'] from rfl]
  rw [collapseWs_cons_nonws _ _ (by decide)]
  rw [collapseWs_cons_nonws _ _ (by decide)]
  rw [collapseWs_nil]



theorem deriveSlug_angle : deriveSlug "a<b" = "a<b" := by
  unfold deriveSlug
  rw [show (pyLower "a<b").data = ['a', '<', 'b'] from rfl]
  rw [pySplit_cons_nonws _ _ (by decide)]
  rw [show List.dropWhile (fun d => !d.isWhitespace) ['<', 'b'] = [] from rfl]
  rw [pySplit_nil]
  rfl

/-- C2 counterexample: for the valid recipe titled `\x20ab` (leading space)
with no slug, `create_recipe` stores the slug `ab`, while the claimed
transformation — the lowercase title with whitespace runs collapsed to
single hyphens, read literally — yields `-ab`, which differs.  The claim as
stated therefore fails on titles with leading or trailing whitespace. -/
theorem c2_counterexample :
    recipeValid ⟨" ab", none, none, [], [], none, none, none, none, []⟩ = true ∧
    createdSlug (create_recipe (some ⟨[], [], [], 0⟩)
      ⟨" ab", none, none, [], [], none, none, none, none, []⟩) = some (.vStr ("ab")) ∧
    collapseStr (pyLower (" ab")) = "-ab" ∧
    ¬ ("ab" : String) = "-ab" := by
  refine ⟨by decide, ?_, collapse_space_ab, by decide⟩
  rw [createdSlug_create_recipe]
  dsimp only
  rw [deriveSlug_space_ab]

/-- C2 (amended): for every valid recipe whose slug is absent or empty,
`create_recipe` stores the slug obtained from the lowercase title by removing
leading and trailing whitespace and collapsing internal whitespace runs to
single hyphens, with no de-duplication; a supplied non-empty slug is stored
as given. -/
theorem c2_slug_derivation (db : Store) (r : Recipe) (_hvalid : recipeValid r = true) :
    ((r.slug = none ∨ r.slug = some ("")) →
      createdSlug (create_recipe (some db) r) =
        some (.vStr (trimCollapseStr (pyLower r.title)))) ∧
    (∀ s, r.slug = some s → ¬ s = "" →
      createdSlug (create_recipe (some db) r) = some (.vStr s)) := by
  have hd : deriveSlug r.title = trimCollapseStr (pyLower r.title) := by
    unfold deriveSlug trimCollapseStr
    rw [joinHyphen_pySplit]
  constructor
  · intro h
    rw [createdSlug_create_recipe]
    rcases h with h | h
    · rw [h]
      dsimp only
      rw [hd]
    · rw [h]
      dsimp only
      rw [if_pos rfl, hd]
  · intro s hs hs0
    rw [createdSlug_create_recipe, hs]
    dsimp only
    rw [if_neg hs0]

/-- Witness for C2 at the recipe titled `My Dish` with no slug. -/
theorem c2_slug_derivation_witness :
    createdSlug (create_recipe (some ⟨[], [], [], 0⟩)
      ⟨"My Dish", none, none, [], [], none, none, none, none, []⟩) =
      some (.vStr (trimCollapseStr (pyLower "My Dish"))) :=
  (c2_slug_derivation ⟨[], [], [], 0⟩
    ⟨"My Dish", none, none, [], [], none, none, none, none, []⟩ (by decide)).1 (Or.inl rfl)

/-- C5 counterexample: the valid recipe titled `a<b` with no slug is stored
by `create_recipe` with slug `a<b`, which contains `<`.  Slugs can therefore
contain XML-significant characters, contrary to the claim. -/
theorem c5_counterexample :
    recipeValid ⟨"a<b", none, none, [], [], none, none, none, none, []⟩ = true ∧
    createdSlug (create_recipe (some ⟨[], [], [], 0⟩)
      ⟨"a<b", none, none, [], [], none, none, none, none, []⟩) = some (.vStr ("a<b")) ∧
    hasXmlChar ("a<b") = true := by
  refine ⟨by decide, ?_, by decide⟩
  rw [createdSlug_create_recipe]
  dsimp only
  rw [deriveSlug_angle]

/-- C5 (amended): the stored slug contains none of `<`, `&`, `>` provided
the title and any supplied slug contain none of them — the hyphen/lowercase
derivation never introduces those characters, but it also never removes
them, so the unconditional claim fails. -/
theorem c5_slug_xml_safe (db : Store) (r : Recipe)
    (_hvalid : recipeValid r = true)
    (ht : hasXmlChar r.title = false)
    (hs : ∀ s, r.slug = some s → hasXmlChar s = false) :
    ∃ slug : String,
      createdSlug (create_recipe (some db) r) = some (.vStr slug) ∧
      hasXmlChar slug = false := by
  rw [createdSlug_create_recipe]
  refine ⟨_, rfl, ?_⟩
  rcases hr : r.slug with _ | s
  · exact hasXmlChar_deriveSlug r.title ht
  · by_cases hs0 : s = ""
    · rw [hs0]
      show hasXmlChar (if ("" : String) = "" then deriveSlug r.title else "") = false
      rw [if_pos rfl]
      exact hasXmlChar_deriveSlug r.title ht
    · show hasXmlChar (if s = "" then deriveSlug r.title else s) = false
      rw [if_neg hs0]
      exact hs s hr

/-- Witness for C5 at a recipe with a clean title and supplied slug. -/
theorem c5_slug_xml_safe_witness :
    ∃ slug : String,
      createdSlug (create_recipe (some ⟨[], [], [], 0⟩)
        ⟨"My Dish", some ("my-dish"), none, [], [], none, none, none, none, []⟩) =
        some (.vStr slug) ∧ hasXmlChar slug = false :=
  c5_slug_xml_safe ⟨[], [], [], 0⟩
    ⟨"My Dish", some ("my-dish"), none, [], [], none, none, none, none, []⟩
    (by decide) (by decide)
    (fun s hs => by
      injection hs with h
      rw [← h]
      decide)

/-! ### Claims about the suggestion endpoint, listing defaults and the absent store (C1, C9, C10, C4) -/

/-- C1: for every input, `ai_suggest` returns exactly the tips of the four
fixed-order rules of the specification evaluated on the lowered comma-space
joined ingredient text, truncated to the first 3; in particular on
title `x` with ingredients `chicken`, `garlic` it returns exactly the salt
tip followed by the garlic tip.  The function is pure: no store access
appears in its definition. -/
theorem c1_ai_suggest_rules :
    (∀ r : AISuggestRequest, ai_suggest r = aiSuggestSpec r) ∧
    ai_suggest ⟨"x", ["chicken", "garlic"]⟩ = [saltTip, garlicTip] := by
  constructor
  · intro r
    unfold ai_suggest aiSuggestSpec specRuleTips
    by_cases h1 :
        strContainsSub (pyLower (String.intercalate (", ") r.ingredients)) ("salt") = true <;>
    by_cases h2 :
        (strContainsSub (pyLower (String.intercalate (", ") r.ingredients)) ("lemon") ||
         strContainsSub (pyLower (String.intercalate (", ") r.ingredients)) ("lime")) = true <;>
    by_cases h3 :
        strContainsSub (pyLower (String.intercalate (", ") r.ingredients)) ("garlic") = true <;>
      simp [h1, h2, h3, saltTip, citrusTip, garlicTip, fallbackTip]
  · rfl

/-- C9: for every input, the tips list returned by `ai_suggest` is
non-empty and has length at most 3. -/
theorem c9_tips_count (r : AISuggestRequest) :
    1 ≤ (ai_suggest r).length ∧ (ai_suggest r).length ≤ 3 := by
  unfold ai_suggest
  by_cases h1 :
      strContainsSub (pyLower (String.intercalate (", ") r.ingredients)) ("salt") = true <;>
  by_cases h2 :
      (strContainsSub (pyLower (String.intercalate (", ") r.ingredients)) ("lemon") ||
       strContainsSub (pyLower (String.intercalate (", ") r.ingredients)) ("lime")) = true <;>
  by_cases h3 :
      strContainsSub (pyLower (String.intercalate (", ") r.ingredients)) ("garlic") = true <;>
    simp [h1, h2, h3, saltTip, citrusTip, garlicTip, fallbackTip]

/-- C10: `list_recipes` treats an empty-string `q` or empty-string `tag`
exactly like an absent parameter, and with `q` empty and no tag it returns
the unfiltered page. -/
theorem c10_empty_query_params (db : Store) (q tag : Option String) (lim : Nat) :
    list_recipes (some db) (some ("")) tag lim = list_recipes (some db) none tag lim ∧
    list_recipes (some db) q (some ("")) lim = list_recipes (some db) q none lim ∧
    list_recipes (some db) (some ("")) (some ("")) lim =
      .ok ((db.recipes.take lim).map serialize_doc) := by
  refine ⟨rfl, rfl, ?_⟩
  unfold list_recipes
  dsimp only
  have h : (fun d => recipeFilterMatch (truthyOpt (some (""))) (truthyOpt (some (""))) d) =
      fun _ : Doc => true := by
    funext d
    rfl
  rw [h, List.filter_true]

/-- C4: with the store client absent, every data-touching handler except the
sitemap returns the fixed `Database not configured` error, but the sitemap
endpoint subscripts the absent client and raises an unhandled TypeError
instead of returning that fixed error — the code contradicts the uniform
fail-fast behaviour the claim states. -/
theorem c4_sitemap_missing_db_check :
    sitemap ("") none = .error (.pyError ("TypeError: NoneType object is not subscriptable")) ∧
    ¬ sitemap ("") none = .error notConfigured ∧
    (∀ r, create_recipe none r = .error notConfigured) ∧
    (∀ q tag lim, list_recipes none q tag lim = .error notConfigured) ∧
    (∀ slug, get_recipe none slug = .error notConfigured) ∧
    (∀ rid c, add_comment none rid c = .error notConfigured) ∧
    (∀ rid lim, list_comments none rid lim = .error notConfigured) ∧
    (∀ c, create_category none c = .error notConfigured) ∧
    (∀ lim, list_categories none lim = .error notConfigured) := by
  refine ⟨rfl, ?_, fun r => rfl, fun q tag lim => rfl, fun slug => rfl,
    fun rid c => rfl, fun rid lim => rfl, fun c => rfl, fun lim => rfl⟩
  intro h
  rw [show sitemap ("") none =
      .error (.pyError ("TypeError: NoneType object is not subscriptable")) from rfl] at h
  injection h with h2
  cases h2

/-! ### Claim about serialization (C7) -/

/-- C7: for every document carrying the store identifier `_id` (and no
pre-existing `id` field, which no document written by this API has),
`serialize_doc` renames `_id` to `id` rendered as a plain string, renders
every other ObjectId-valued field as a plain string, and leaves every other
field unchanged. -/
theorem c7_serialize_doc (d : Doc) (oid : String)
    (h1 : getK d ("_id") = some (.vOid oid)) (h2 : getK d ("id") = none) :
    getK (serialize_doc d) ("id") = some (.vStr oid) ∧
    getK (serialize_doc d) ("_id") = none ∧
    (∀ k, ¬ k = "_id" → ¬ k = "id" →
      getK (serialize_doc d) k = (getK d k).map oidToStr) := by
  have hd : ¬ d = [] := by
    intro h0
    rw [h0] at h1
    cases h1
  have hpop_id : getK (popK d ("_id")) ("id") = none := by
    rw [getK_popK_ne d _ _ (by decide)]
    exact h2
  have hser : serialize_doc d =
      ((popK d ("_id")) ++ [(("id"), Value.vStr oid)]).map
        (fun kv => (kv.1, oidToStr kv.2)) := by
    unfold serialize_doc
    rw [if_neg hd, h1]
    show (setK (popK d ("_id")) ("id") (.vStr (pyStr (.vOid oid)))).map
        (fun kv => (kv.1, oidToStr kv.2)) = _
    rw [setK_eq_append _ _ _ hpop_id]
    rfl
  refine ⟨?_, ?_, ?_⟩
  · rw [hser, getK_map_oid, getK_append, hpop_id]
    rw [getK_cons, if_pos rfl]
    rfl
  · rw [hser, getK_map_oid, getK_append, getK_popK_self]
    rw [getK_cons, if_neg (by decide)]
    rfl
  · intro k hk1 hk2
    rw [hser, getK_map_oid, getK_append]
    rw [getK_popK_ne d _ _ (fun he => hk1 he.symm)]
    rw [getK_cons, if_neg (fun he => hk2 he.symm)]
    show ((getK d k).or none).map oidToStr = _
    cases getK d k <;> rfl

/-- Witness for C7 at a three-field document with a nested ObjectId. -/
theorem c7_serialize_doc_witness :
    getK (serialize_doc [(("_id"), .vOid ("0123")), (("author"), .vStr ("ann")),
        (("owner"), .vOid ("4567"))]) ("id") = some (.vStr ("0123")) ∧
    getK (serialize_doc [(("_id"), .vOid ("0123")), (("author"), .vStr ("ann")),
        (("owner"), .vOid ("4567"))]) ("author") =
      (getK [(("_id"), Value.vOid ("0123")), (("author"), Value.vStr ("ann")),
        (("owner"), Value.vOid ("4567"))] ("author")).map oidToStr := by
  constructor
  · exact (c7_serialize_doc [(("_id"), .vOid ("0123")), (("author"), .vStr ("ann")),
      (("owner"), .vOid ("4567"))] ("0123") rfl rfl).1
  · exact (c7_serialize_doc [(("_id"), .vOid ("0123")), (("author"), .vStr ("ann")),
      (("owner"), .vOid ("4567"))] ("0123") rfl rfl).2.2 ("author") (by decide) (by decide)

/-! ### Claims about the comments endpoint (C8, C3) -/

/-- C8: a comments request whose body omits `recipe_id` is rejected with a
validation error, and on every successful request the inserted comment
document carries the path `recipe_id`, whatever value the body supplied. -/
theorem c8_comment_body (db : Store) (rid : String) (p : CommentPayload) :
    (p.recipe_id = none →
      add_comment_route (some db) rid p =
        .error (.validation ("recipe_id: field required"))) ∧
    (∀ c, validateComment p = .ok c →
      ∀ res st, add_comment_route (some db) rid p = .ok (res, st) →
        ∃ d, st.comments = db.comments ++ [d] ∧
          getK d ("recipe_id") = some (.vStr rid)) := by
  constructor
  · intro h
    unfold add_comment_route validateComment
    rw [h]
  · intro c hc res st hok
    unfold add_comment_route at hok
    rw [hc] at hok
    replace hok : add_comment (some db) rid c = .ok (res, st) := hok
    unfold add_comment at hok
    dsimp only at hok
    by_cases hv : isValidObjectIdStr rid = true
    · rw [if_pos hv] at hok
      rcases hf : db.recipes.find?
          (fun d => decide (getK d ("_id") = some (.vOid (pyLower rid)))) with _ | d0
      · rw [hf] at hok
        cases hok
      · rw [hf] at hok
        replace hok : (Except.ok (oidHex db.nextId,
            { db with
                comments := db.comments ++
                  [setK (setK (commentDump c) ("recipe_id") (.vStr rid)) ("_id")
                    (.vOid (oidHex db.nextId))],
                nextId := db.nextId + 1 }) : Except HErr (String × Store)) = .ok (res, st) := hok
        injection hok with hok2
        have hst : st = { db with
            comments := db.comments ++
              [setK (setK (commentDump c) ("recipe_id") (.vStr rid)) ("_id")
                (.vOid (oidHex db.nextId))],
            nextId := db.nextId + 1 } := by
          have := congrArg Prod.snd hok2
          exact this.symm
        refine ⟨setK (setK (commentDump c) ("recipe_id") (.vStr rid)) ("_id")
          (.vOid (oidHex db.nextId)), ?_, ?_⟩
        · rw [hst]
        · rw [getK_setK_ne _ _ _ _ (by decide)]
          rw [getK_setK_self]
    · rw [if_neg hv] at hok
      cases hok

/-- Witness for C8 at a body missing `recipe_id`. -/
theorem c8_comment_body_witness :
    add_comment_route (some ⟨[], [], [], 5⟩) ("00000000000000000000aaaa")
      ⟨none, some ("Ann"), some ("nice")⟩ =
      .error (.validation ("recipe_id: field required")) :=
  (c8_comment_body ⟨[], [], [], 5⟩ ("00000000000000000000aaaa")
    ⟨none, some ("Ann"), some ("nice")⟩).1 rfl

/-- C3 counterexample: a request whose path id `xx` is malformed and whose
payload has a 1-character name is answered with the payload validation
error, not the `Invalid recipe id` error, because the framework validates
the body before the handler's id check runs.  The claim's validation order
is therefore wrong. -/
theorem c3_counterexample :
    add_comment_route (some ⟨[], [], [], 0⟩) ("xx")
      ⟨some ("zzz"), some ("A"), some ("hi")⟩ =
      .error (.validation ("name: too short")) ∧
    ¬ isValidObjectIdStr ("xx") = true ∧
    ¬ add_comment_route (some ⟨[], [], [], 0⟩) ("xx")
        ⟨some ("zzz"), some ("A"), some ("hi")⟩ =
      .error (.http 400 ("Invalid recipe id")) := by
  refine ⟨rfl, by decide, ?_⟩
  intro h
  rw [show add_comment_route (some ⟨[], [], [], 0⟩) ("xx")
      ⟨some ("zzz"), some ("A"), some ("hi")⟩ =
      .error (.validation ("name: too short")) from rfl] at h
  injection h with h2
  cases h2

/-- C3 (amended): for every comments request the checks run in the order:
first the `Comment` payload field constraints (framework validation error),
then the well-formedness of the path id (400 `Invalid recipe id`), then the
existence of the recipe (404 `Recipe not found`) — so a request with both a
malformed path id and an invalid payload reports the payload validation
error. -/
theorem c3_validation_order (db : Store) (rid : String) (p : CommentPayload) :
    (∀ e, validateComment p = .error e →
      add_comment_route (some db) rid p = .error (.validation e)) ∧
    (∀ c, validateComment p = .ok c → ¬ isValidObjectIdStr rid = true →
      add_comment_route (some db) rid p = .error (.http 400 ("Invalid recipe id"))) ∧
    (∀ c, validateComment p = .ok c → isValidObjectIdStr rid = true →
      db.recipes.find? (fun d => decide (getK d ("_id") = some (.vOid (pyLower rid)))) = none →
      add_comment_route (some db) rid p = .error (.http 404 ("Recipe not found"))) := by
  refine ⟨?_, ?_, ?_⟩
  · intro e he
    unfold add_comment_route
    rw [he]
  · intro c hc hv
    unfold add_comment_route
    rw [hc]
    show add_comment (some db) rid c = _
    unfold add_comment
    dsimp only
    rw [if_neg hv]
  · intro c hc hv hf
    unfold add_comment_route
    rw [hc]
    show add_comment (some db) rid c = _
    unfold add_comment
    dsimp only
    rw [if_pos hv]
    rw [hf]

/-- Witness for C3 at a well-formed path id with a payload missing `name`. -/
theorem c3_validation_order_witness :
    add_comment_route (some ⟨[], [], [], 0⟩) ("00000000000000000000ffff")
      ⟨some ("q"), none, none⟩ = .error (.validation ("name: field required")) :=
  (c3_validation_order ⟨[], [], [], 0⟩ ("00000000000000000000ffff")
    ⟨some ("q"), none, none⟩).1 ("name: field required") rfl

/-! ### Claims about recipe listing filters (C6) -/

/-- C6 counterexample: with one stored recipe titled `abc` tagged `t`, the
query `q = a.c` (a regex metacharacter) together with `tag = t` returns that
record even though its title does not contain `a.c` as a case-insensitive
substring — `$regex` interprets `q` as a regular expression, not a literal
substring, so the claim fails for `q` containing metacharacters. -/
theorem c6_counterexample :
    list_recipes (some ⟨[[(("_id"), .vOid ("000000000000000000000000")),
        (("title"), .vStr ("abc")), (("tags"), .vStrList ["t"])]], [], [], 1⟩)
      (some ("a.c")) (some ("t")) 20 =
      .ok [serialize_doc [(("_id"), .vOid ("000000000000000000000000")),
        (("title"), .vStr ("abc")), (("tags"), .vStrList ["t"])]] ∧
    strContainsSub (pyLower ("abc")) (pyLower ("a.c")) = false := by
  exact ⟨rfl, rfl⟩

/-- C6 (amended): for every non-empty `q` and non-empty `tag`, the records
`list_recipes` returns are exactly those whose title matches `q` as a
case-insensitive regular expression and whose tags contain `tag` exactly
(case-sensitive), combined with logical AND; when `q` is free of regex
metacharacters the title predicate coincides with case-insensitive substring
containment of `q` in the title. -/
theorem c6_list_recipes_filter (db : Store) (q tag : String) (lim : Nat)
    (hq : ¬ q = "") (ht : ¬ tag = "") :
    list_recipes (some db) (some q) (some tag) lim =
      .ok (((db.recipes.filter
        (fun d => recipeFilterMatch (some q) (some tag) d)).take lim).map serialize_doc) ∧
    ∀ d ∈ (db.recipes.filter
        (fun d => recipeFilterMatch (some q) (some tag) d)).take lim,
      mongoTitleRegex q d = true ∧ mongoTagMatch tag d = true ∧
      (regexMetaFree q = true → ∀ s, getK d ("title") = some (.vStr s) →
        strContainsSub (pyLower s) (pyLower q) = true) := by
  have htq : truthyOpt (some q) = some q := by
    unfold truthyOpt
    dsimp only
    rw [if_neg hq]
  have htt : truthyOpt (some tag) = some tag := by
    unfold truthyOpt
    dsimp only
    rw [if_neg ht]
  constructor
  · unfold list_recipes
    dsimp only
    rw [htq, htt]
  · intro d hd
    have hm := (List.mem_filter.mp (List.mem_of_mem_take hd)).2
    unfold recipeFilterMatch at hm
    rw [Bool.and_eq_true] at hm
    refine ⟨hm.1, hm.2, ?_⟩
    intro hmf s hs
    have hti := hm.1
    unfold mongoTitleRegex at hti
    rw [hs] at hti
    exact regexMatchI_metaFree hmf hti

/-- Witness for C6 at a store holding one tagged recipe. -/
theorem c6_list_recipes_filter_witness :
    list_recipes (some ⟨[[(("_id"), .vOid ("000000000000000000000001")),
        (("title"), .vStr ("Pasta")), (("tags"), .vStrList ["veg"])]], [], [], 2⟩)
      (some ("past")) (some ("veg")) 10 =
      .ok ((([[(("_id"), Value.vOid ("000000000000000000000001")),
        (("title"), Value.vStr ("Pasta")), (("tags"), Value.vStrList ["veg"])]].filter
          (fun d => recipeFilterMatch (some ("past")) (some ("veg")) d)).take 10).map
            serialize_doc) :=
  (c6_list_recipes_filter ⟨[[(("_id"), .vOid ("000000000000000000000001")),
      (("title"), .vStr ("Pasta")), (("tags"), .vStrList ["veg"])]], [], [], 2⟩
    ("past") ("veg") 10 (by decide) (by decide)).1

end RecipeBlog
